import Mathlib

/-!
Verification of the GazeTracking pupil-localization core: a shallow
embedding of `gaze_tracking/calibration.py`, `pupil.py`, `eye.py` and
`gaze_tracking.py`, together with theorems settling the specification
claims about calibration, iris detection and the gaze-direction queries.

Grayscale images are modelled as a height, a width and a pixel function;
the external image-processing primitives (bilateral filter, erosion,
contour extraction, contour area, image moments) are fields of a
`CvPrims` structure, constrained only by the library contract that
filtering and erosion preserve image dimensions.  Fallible Python code
(division by zero, `None` in arithmetic, `min` of an empty sequence)
is modelled with `Except PyError`.
-/

/-- Python runtime errors that the modelled code can raise. -/
inductive PyError where
  | zeroDivisionError
  | typeError
  | valueError
deriving DecidableEq, Repr

/-- Spatial moments of a contour as returned by the external `moments`
primitive: the zeroth moment `m00` and the two first moments. -/
structure Moments where
  m00 : ℚ
  m10 : ℚ
  m01 : ℚ
deriving DecidableEq, Repr

/-- A grayscale image: height, width, and a pixel intensity function. -/
structure Image where
  h : ℕ
  w : ℕ
  px : ℕ → ℕ → ℕ

/-- A contour identifier handed out by the external contour-extraction
primitive; its geometry is only visible through `contourArea` and
`moments`. -/
abbrev Contour : Type := ℕ

/-- The external image-processing primitives consumed by the core
(bilateral smoothing, morphological erosion, contour extraction, contour
area, moments), together with the library contract that smoothing and
erosion preserve the image dimensions. -/
structure CvPrims where
  bilateralFilter : Image → Image
  erode : Image → ℕ → Image
  findContours : Image → List Contour
  contourArea : Contour → ℚ
  moments : Contour → Moments
  bilateral_h : ∀ im, (bilateralFilter im).h = im.h
  bilateral_w : ∀ im, (bilateralFilter im).w = im.w
  erode_h : ∀ im n, (erode im n).h = im.h
  erode_w : ∀ im n, (erode im n).w = im.w

/-- Python `int()` applied to a rational: truncation toward zero. -/
def pyInt (q : ℚ) : ℤ :=
  if 0 ≤ q then q.floor else -((-q).floor)

namespace Pupil

/-- `Pupil.image_processing`: bilateral filter, then a 3x3 erosion with
3 iterations, then binarization at `threshold` (`cv2.THRESH_BINARY`:
pixels strictly above the threshold become 255, the rest 0). -/
def image_processing (prims : CvPrims) (eye_frame : Image) (threshold : ℕ) : Image :=
  let filtered := prims.bilateralFilter eye_frame
  let eroded := prims.erode filtered 3
  { h := eroded.h, w := eroded.w,
    px := fun i j => if eroded.px i j > threshold then 255 else 0 }

end Pupil

/-- `cv2.countNonZero`: the number of nonzero pixels of an image. -/
def countNonZero (im : Image) : ℕ :=
  Finset.sum (Finset.range im.h) fun i =>
    Finset.sum (Finset.range im.w) fun j => if im.px i j ≠ 0 then 1 else 0

/-- The numpy slice `frame[5:-5, 5:-5]`: drop a 5-pixel border on every
side (empty when a dimension is at most 10). -/
def trimFrame (im : Image) : Image :=
  { h := im.h - 10, w := im.w - 10, px := fun i j => im.px (i + 5) (j + 5) }

/-- Calibration state: the target frame count and the two per-side lists
of recorded best thresholds. -/
structure Calibration where
  nb_frames : ℕ
  thresholds_left : List ℕ
  thresholds_right : List ℕ
deriving DecidableEq, Repr

/-- A fresh `Calibration()` object: target 20 frames, empty sample lists. -/
def initCalibration : Calibration :=
  { nb_frames := 20, thresholds_left := [], thresholds_right := [] }

namespace Calibration

/-- `Calibration.is_complete`: both sides have at least `nb_frames` samples. -/
def is_complete (c : Calibration) : Bool :=
  c.nb_frames ≤ c.thresholds_left.length && c.nb_frames ≤ c.thresholds_right.length

/-- The sample list of a side (0 = left, 1 = right); helper for stating
claims uniformly over the two meaningful sides. -/
def sideSamples (c : Calibration) (side : ℕ) : List ℕ :=
  if side = 0 then c.thresholds_left else c.thresholds_right

/-- `Calibration.threshold`: `int(sum(samples) / len(samples))` for side
0 or 1 — the truncating integer mean, raising `ZeroDivisionError` on an
empty sample list; any other side falls through and returns `None`. -/
def threshold (c : Calibration) (side : ℕ) : Except PyError (Option ℕ) :=
  if side = 0 then
    if c.thresholds_left.length = 0 then .error .zeroDivisionError
    else .ok (some (c.thresholds_left.sum / c.thresholds_left.length))
  else if side = 1 then
    if c.thresholds_right.length = 0 then .error .zeroDivisionError
    else .ok (some (c.thresholds_right.sum / c.thresholds_right.length))
  else .ok none

/-- `Calibration.iris_size`: trim a 5-pixel border, then return the
fraction of black pixels, `nb_blacks / nb_pixels`; division by zero when
the trimmed region is empty. -/
def iris_size (frame : Image) : Except PyError ℚ :=
  let f := trimFrame frame
  let nb_pixels := f.h * f.w
  let nb_blacks := nb_pixels - countNonZero f
  if nb_pixels = 0 then .error .zeroDivisionError
  else .ok ((nb_blacks : ℚ) / (nb_pixels : ℚ))

end Calibration

/-- The iris occupancy recorded for one candidate threshold:
`Calibration.iris_size(Pupil.image_processing(eye_frame, threshold))`. -/
def occupancy (prims : CvPrims) (eye_frame : Image) (threshold : ℕ) : Except PyError ℚ :=
  Calibration.iris_size (Pupil.image_processing prims eye_frame threshold)

/-- The candidate thresholds `range(5, 100, 5)` in iteration order. -/
def candidateThresholds : List ℕ :=
  [5, 10, 15, 20, 25, 30, 35, 40, 45, 50, 55, 60, 65, 70, 75, 80, 85, 90, 95]

/-- The target iris-occupancy constant `average_iris_size = 0.48`. -/
def averageIrisSize : ℚ := 48 / 100

/-- The `trials` association built by `find_best_threshold`: each
candidate threshold paired with its measured occupancy, in iteration
order, propagating the first raised error. -/
def computeTrials (prims : CvPrims) (eye_frame : Image) : List ℕ → Except PyError (List (ℕ × ℚ))
  | [] => .ok []
  | t :: ts => do
    let v ← occupancy prims eye_frame t
    let rest ← computeTrials prims eye_frame ts
    .ok ((t, v) :: rest)

/-- Python `min(..., key = fun p => |p.2 - target|)` over a nonempty
sequence: keep the current best, replacing it only on a strictly smaller
key, so the first optimum encountered wins. -/
def pickMin (target : ℚ) (best : ℕ × ℚ) : List (ℕ × ℚ) → ℕ × ℚ
  | [] => best
  | p :: ps => pickMin target (if |p.2 - target| < |best.2 - target| then p else best) ps

namespace Calibration

/-- `Calibration.find_best_threshold`: measure the occupancy of every
candidate threshold and return the one whose occupancy is closest to
`average_iris_size`, first optimum winning ties. -/
def find_best_threshold (prims : CvPrims) (eye_frame : Image) : Except PyError ℕ := do
  let trials ← computeTrials prims eye_frame candidateThresholds
  match trials with
  | [] => .error .valueError
  | p :: ps => .ok (pickMin averageIrisSize p ps).1

/-- `Calibration.evaluate`: compute the best threshold for the given eye
frame and append it to the list of the given side (0 = left, 1 = right;
any other side appends nothing). -/
def evaluate (c : Calibration) (prims : CvPrims) (eye_frame : Image) (side : ℕ) :
    Except PyError Calibration := do
  let t ← find_best_threshold prims eye_frame
  if side = 0 then .ok { c with thresholds_left := c.thresholds_left ++ [t] }
  else if side = 1 then .ok { c with thresholds_right := c.thresholds_right ++ [t] }
  else .ok c

end Calibration

/-- The calibration effect of `Eye._analyze` for one eye: call
`calibration.evaluate` only while `calibration.is_complete()` is false. -/
def eyeAnalyzeCalib (prims : CvPrims) (eye_frame : Image) (side : ℕ) (c : Calibration) :
    Except PyError Calibration :=
  if c.is_complete then .ok c else c.evaluate prims eye_frame side

/-- Calibration states reachable in a `GazeTracking` session: the fresh
state, and the state after a successfully analyzed frame, in which
`GazeTracking._analyze` builds the left eye (side 0) and then the right
eye (side 1), each one running `eyeAnalyzeCalib` on its own eye frame.
Frames with no detected face leave the calibration untouched. -/
inductive ReachableCalib : Calibration → Prop
  | init : ReachableCalib initCalibration
  | frame (c c1 c2 : Calibration) (prims : CvPrims) (fL fR : Image) :
      ReachableCalib c →
      eyeAnalyzeCalib prims fL 0 c = .ok c1 →
      eyeAnalyzeCalib prims fR 1 c1 = .ok c2 →
      ReachableCalib c2

/-- Python `sorted(contours, key=cv2.contourArea)`: stable ascending
sort by enclosed area. -/
def sortContours (prims : CvPrims) (l : List Contour) : List Contour :=
  List.insertionSort (fun a b => prims.contourArea a ≤ prims.contourArea b) l

namespace Pupil

/-- `Pupil.detect_iris`: binarize the eye frame, extract and sort the
contours by area ascending, take the second-largest one (`contours[-2]`)
and return its truncated moment centroid `(m10/m00, m01/m00)`; the
coordinates stay absent on an `IndexError` (fewer than two contours) or
a `ZeroDivisionError` (`m00 = 0`). -/
def detect_iris (prims : CvPrims) (eye_frame : Image) (threshold : ℕ) : Option (ℤ × ℤ) :=
  let iris_frame := image_processing prims eye_frame threshold
  let contours := sortContours prims (prims.findContours iris_frame)
  if 2 ≤ contours.length then
    let m := prims.moments (contours.getD (contours.length - 2) 0)
    if m.m00 = 0 then none
    else some (pyInt (m.m10 / m.m00), pyInt (m.m01 / m.m00))
  else none

end Pupil

/-- The per-frame state of one `Eye` object: crop origin in
original-frame coordinates, eye-frame-local center, the blink ratio
(absent on a zero-height aperture), and the pupil's local coordinates
(absent when detection failed). -/
structure EyeState where
  origin : ℤ × ℤ
  center : ℚ × ℚ
  blinking : Option ℚ
  pupil : Option (ℤ × ℤ)
deriving DecidableEq, Repr

/-- The query-relevant state of a `GazeTracking` object after `refresh`:
each eye is either absent (no face detected) or an `EyeState`. -/
structure GazeState where
  eye_left : Option EyeState
  eye_right : Option EyeState
deriving DecidableEq, Repr

namespace GazeTracking

/-- `GazeTracking.pupils_located`: both eyes present and both pupils
have defined coordinates. -/
def pupils_located (s : GazeState) : Bool :=
  match s.eye_left, s.eye_right with
  | some l, some r => l.pupil.isSome && r.pupil.isSome
  | _, _ => false

/-- `GazeTracking.pupil_left_coords`: when the pupils are located, the
left eye's origin plus the left pupil's local coordinates. -/
def pupil_left_coords (s : GazeState) : Option (ℤ × ℤ) :=
  match s.eye_left, s.eye_right with
  | some l, some r =>
    match l.pupil, r.pupil with
    | some p, some _ => some (l.origin.1 + p.1, l.origin.2 + p.2)
    | _, _ => none
  | _, _ => none

/-- `GazeTracking.pupil_right_coords`: when the pupils are located, the
right eye's origin plus the right pupil's local coordinates. -/
def pupil_right_coords (s : GazeState) : Option (ℤ × ℤ) :=
  match s.eye_left, s.eye_right with
  | some l, some r =>
    match l.pupil, r.pupil with
    | some _, some p => some (r.origin.1 + p.1, r.origin.2 + p.2)
    | _, _ => none
  | _, _ => none

/-- `GazeTracking.horizontal_ratio`: the average over both eyes of
`pupil.x / (2 * center.x - 10)`, absent when the pupils are not located,
raising `ZeroDivisionError` on a zero denominator (left eye first). -/
def horizontal_ratio (s : GazeState) : Except PyError (Option ℚ) :=
  match s.eye_left, s.eye_right with
  | some l, some r =>
    match l.pupil, r.pupil with
    | some pl, some pr =>
      let dl := l.center.1 * 2 - 10
      let dr := r.center.1 * 2 - 10
      if dl = 0 then .error .zeroDivisionError
      else if dr = 0 then .error .zeroDivisionError
      else .ok (some (((pl.1 : ℚ) / dl + (pr.1 : ℚ) / dr) / 2))
    | _, _ => .ok none
  | _, _ => .ok none

/-- `GazeTracking.is_right`: when the pupils are located, whether
`horizontal_ratio() <= 0.65`. -/
def is_right (s : GazeState) : Except PyError (Option Bool) :=
  if pupils_located s then
    (horizontal_ratio s).map (fun o => o.map (fun q => decide (q ≤ 13 / 20)))
  else .ok none

/-- `GazeTracking.is_left`: when the pupils are located, whether
`horizontal_ratio() >= 0.65`. -/
def is_left (s : GazeState) : Except PyError (Option Bool) :=
  if pupils_located s then
    (horizontal_ratio s).map (fun o => o.map (fun q => decide ((13 : ℚ) / 20 ≤ q)))
  else .ok none

/-- `GazeTracking.is_center`: when the pupils are located,
`is_right() is not True and is_left() is not True`. -/
def is_center (s : GazeState) : Except PyError (Option Bool) :=
  if pupils_located s then do
    let r ← is_right s
    let l ← is_left s
    .ok (some (!(r == some true) && !(l == some true)))
  else .ok none

/-- `GazeTracking.is_blinking`: when the pupils are located, whether the
mean of the two eyes' blink ratios exceeds 3.8; Python's addition
`None + float` raises a `TypeError` when either ratio is absent. -/
def is_blinking (s : GazeState) : Except PyError (Option Bool) :=
  match s.eye_left, s.eye_right with
  | some l, some r =>
    if l.pupil.isSome && r.pupil.isSome then
      match l.blinking, r.blinking with
      | some bl, some br => .ok (some (decide ((bl + br) / 2 > 19 / 5)))
      | _, _ => .error .typeError
    else .ok none
  | _, _ => .ok none

end GazeTracking

instance {ε α : Type} [DecidableEq ε] [DecidableEq α] : DecidableEq (Except ε α) := fun x y =>
  match x, y with
  | .ok a, .ok b =>
    if h : a = b then isTrue (by rw [h]) else isFalse (fun hc => h (Except.ok.inj hc))
  | .error a, .error b =>
    if h : a = b then isTrue (by rw [h]) else isFalse (fun hc => h (Except.error.inj hc))
  | .ok _, .error _ => isFalse (fun hc => Except.noConfusion hc)
  | .error _, .ok _ => isFalse (fun hc => Except.noConfusion hc)

/-- An instantiation of the external primitives in which smoothing and
erosion are the identity and no contours are found; used to evaluate the
calibration pipeline on concrete frames. -/
def idPrims : CvPrims :=
  { bilateralFilter := id
    erode := fun im _ => im
    findContours := fun _ => []
    contourArea := fun _ => 0
    moments := fun _ => { m00 := 0, m10 := 0, m01 := 0 }
    bilateral_h := fun _ => rfl
    bilateral_w := fun _ => rfl
    erode_h := fun _ _ => rfl
    erode_w := fun _ _ => rfl }

/-- A 12x12 all-black eye frame: big enough for the 5-pixel trim to
leave a nonempty 2x2 region. -/
def frame12 : Image := { h := 12, w := 12, px := fun _ _ => 0 }

/-- An 8x8 eye frame: too small for the 5-pixel border trim. -/
def frame8 : Image := { h := 8, w := 8, px := fun _ _ => 0 }

/-- Every pixel of `frame12` is at or below every candidate threshold,
so every binarized pixel is black and the occupancy is exactly 1. -/
theorem occupancy_frame12 (t : ℕ) : occupancy idPrims frame12 t = .ok 1 := by
  simp [occupancy, Calibration.iris_size, trimFrame, Pupil.image_processing, idPrims, frame12,
    countNonZero, Finset.sum_range_succ]

/-- On `frame12` all candidate occupancies tie at 1, so the first
candidate, threshold 5, wins. -/
theorem find_best_threshold_frame12 : Calibration.find_best_threshold idPrims frame12 = .ok 5 := by
  simp [Calibration.find_best_threshold, computeTrials, candidateThresholds, occupancy_frame12,
    bind, Except.bind, pickMin, averageIrisSize]

/-- C5: `Calibration.threshold` returns the truncating-division integer
mean of the side's recorded samples whenever at least one sample exists,
and raises a `ZeroDivisionError` exactly when the side's sample list is
still empty. -/
theorem threshold_mean_spec (c : Calibration) (side : ℕ) (hside : side = 0 ∨ side = 1) :
    c.threshold side =
      (if (c.sideSamples side).length = 0 then .error .zeroDivisionError
       else .ok (some ((c.sideSamples side).sum / (c.sideSamples side).length))) := by
  rcases hside with h | h <;> subst h <;>
    simp [Calibration.threshold, Calibration.sideSamples]

/-- C5 witness: a calibration with samples `[7, 8]` on the left side has
left threshold `int((7 + 8) / 2) = 7`, as the theorem computes. -/
theorem threshold_mean_spec_witness :
    (Calibration.mk 20 [7, 8] []).threshold 0 =
      (if ((Calibration.mk 20 [7, 8] []).sideSamples 0).length = 0 then .error .zeroDivisionError
       else .ok (some (((Calibration.mk 20 [7, 8] []).sideSamples 0).sum /
         ((Calibration.mk 20 [7, 8] []).sideSamples 0).length))) :=
  threshold_mean_spec (Calibration.mk 20 [7, 8] []) 0 (Or.inl rfl)

/-- A calibration state whose left side already holds 20 samples, all
equal to 90. -/
def c20 : Calibration :=
  { nb_frames := 20, thresholds_left := List.replicate 20 90, thresholds_right := [] }

/-- C1 counterexample: the left side of `c20` already has 20 samples,
yet `Calibration.evaluate` on side 0 succeeds and appends a 21st sample
(the best threshold 5 found for `frame12`), changing the left mean
threshold from 90 to 85 — the call is not a no-op. -/
theorem evaluate_appends_at_cap :
    c20.thresholds_left.length = 20 ∧
    c20.evaluate idPrims frame12 0 =
      .ok { nb_frames := 20, thresholds_left := List.replicate 20 90 ++ [5],
            thresholds_right := [] } ∧
    c20.threshold 0 = .ok (some 90) ∧
    ({ nb_frames := 20, thresholds_left := List.replicate 20 90 ++ [5],
       thresholds_right := [] } : Calibration).threshold 0 = .ok (some 85) := by
  refine ⟨by decide, ?_, by decide, by decide⟩
  simp [Calibration.evaluate, c20, find_best_threshold_frame12, bind, Except.bind]

/-- C1 amended: `Calibration.evaluate` appends the computed best
threshold to the given side's sample list unconditionally — regardless
of how many samples that side already has; the no-op at 20 samples is
enforced only by the caller `Eye._analyze` through `is_complete`. -/
theorem evaluate_always_appends (c : Calibration) (prims : CvPrims) (f : Image) (t : ℕ)
    (ht : Calibration.find_best_threshold prims f = .ok t) :
    c.evaluate prims f 0 = .ok { c with thresholds_left := c.thresholds_left ++ [t] } ∧
    c.evaluate prims f 1 = .ok { c with thresholds_right := c.thresholds_right ++ [t] } := by
  constructor <;> simp [Calibration.evaluate, ht, bind, Except.bind]

/-- C1 amended witness: evaluating `frame12` against `c20` appends the
best threshold 5 to the chosen side even though the left side already
holds 20 samples. -/
theorem evaluate_always_appends_witness :
    c20.evaluate idPrims frame12 0 =
      .ok { c20 with thresholds_left := c20.thresholds_left ++ [5] } ∧
    c20.evaluate idPrims frame12 1 =
      .ok { c20 with thresholds_right := c20.thresholds_right ++ [5] } :=
  evaluate_always_appends c20 idPrims frame12 5 find_best_threshold_frame12

/-- A left eye whose blink ratio is absent (zero-height aperture) but
whose pupil was located. -/
def eyeA : EyeState :=
  { origin := (10, 20), center := (55, 20), blinking := none, pupil := some (3, 4) }

/-- A right eye with blink ratio 4 and a located pupil. -/
def eyeB : EyeState :=
  { origin := (70, 20), center := (55, 20), blinking := some 4, pupil := some (5, 6) }

/-- A session state with both pupils located but the left blink ratio
absent. -/
def sBlink : GazeState := { eye_left := some eyeA, eye_right := some eyeB }

/-- C2: with both pupils located but one eye's blink ratio absent,
`is_blinking` raises a `TypeError` (Python evaluates `None + float`)
instead of returning a result. -/
theorem is_blinking_one_side_none (s : GazeState) (l r : EyeState)
    (hl : s.eye_left = some l) (hr : s.eye_right = some r)
    (hpl : l.pupil.isSome = true) (hpr : r.pupil.isSome = true)
    (hb : l.blinking = none) :
    GazeTracking.is_blinking s = .error .typeError := by
  cases hrb : r.blinking <;>
    simp [GazeTracking.is_blinking, hl, hr, hpl, hpr, hb, hrb]

/-- C2 witness: on the concrete state `sBlink` the blink query raises
the `TypeError`. -/
theorem is_blinking_one_side_none_witness :
    GazeTracking.is_blinking sBlink = .error .typeError :=
  is_blinking_one_side_none sBlink eyeA eyeB rfl rfl rfl rfl rfl

/-- A `horizontal_ratio` that returns a value implies both eyes and both
pupils are present. -/
theorem horizontal_ratio_ok_some {s : GazeState} {q : ℚ}
    (hq : GazeTracking.horizontal_ratio s = .ok (some q)) :
    GazeTracking.pupils_located s = true := by
  rcases s with ⟨el, er⟩
  rcases el with _ | l
  · simp [GazeTracking.horizontal_ratio] at hq
  rcases er with _ | r
  · simp [GazeTracking.horizontal_ratio] at hq
  rcases hpl : l.pupil with _ | pl
  · simp [GazeTracking.horizontal_ratio, hpl] at hq
  rcases hpr : r.pupil with _ | pr
  · simp [GazeTracking.horizontal_ratio, hpl, hpr] at hq
  simp [GazeTracking.pupils_located, hpl, hpr]

/-- C3: whenever `horizontal_ratio` returns any value at all — in
particular at the pupil-at-eye-center configuration — `is_center`
returns `False`: since `is_right` is `ratio <= 0.65` and `is_left` is
`ratio >= 0.65`, one of them is always `True`, so `is_center` is
unsatisfiable. -/
theorem is_center_always_false (s : GazeState) (q : ℚ)
    (hq : GazeTracking.horizontal_ratio s = .ok (some q)) :
    GazeTracking.is_center s = .ok (some false) := by
  have hloc := horizontal_ratio_ok_some hq
  have hr : GazeTracking.is_right s = .ok (some (decide (q ≤ 13 / 20))) := by
    simp [GazeTracking.is_right, hloc, hq, Except.map]
  have hl : GazeTracking.is_left s = .ok (some (decide ((13 : ℚ) / 20 ≤ q))) := by
    simp [GazeTracking.is_left, hloc, hq, Except.map]
  rcases le_total q (13 / 20) with h | h <;>
    simp [GazeTracking.is_center, hloc, hr, hl, bind, Except.bind, h]

/-- A left eye with its pupil exactly at the eye-frame center (eye frame
110 pixels wide, center x = 55). -/
def eyeC : EyeState :=
  { origin := (10, 30), center := (55, 20), blinking := some 3, pupil := some (55, 20) }

/-- A right eye with its pupil exactly at the eye-frame center. -/
def eyeD : EyeState :=
  { origin := (170, 30), center := (55, 20), blinking := some 3, pupil := some (55, 20) }

/-- A session state in which both pupils sit exactly at their eye
centers. -/
def sCenter : GazeState := { eye_left := some eyeC, eye_right := some eyeD }

/-- The margin-corrected ratio of `sCenter`: each eye contributes
`55 / (55 * 2 - 10) = 0.55`, so the average is 0.55. -/
theorem horizontal_ratio_sCenter :
    GazeTracking.horizontal_ratio sCenter = .ok (some (11 / 20)) := by
  simp [GazeTracking.horizontal_ratio, sCenter, eyeC, eyeD]
  norm_num

/-- C3 witness: at the pupil-at-center state `sCenter` (ratio 0.55) the
code returns `is_center = False`. -/
theorem is_center_always_false_witness :
    GazeTracking.is_center sCenter = .ok (some false) :=
  is_center_always_false sCenter (11 / 20) horizontal_ratio_sCenter

/-- C8: whenever both pupils are located, each `pupil_coords` query
returns that eye's crop origin plus the pupil's eye-frame-local
coordinates, component-wise exactly. -/
theorem pupil_coords_origin_plus_local (s : GazeState) (l r : EyeState) (pl pr : ℤ × ℤ)
    (hl : s.eye_left = some l) (hr : s.eye_right = some r)
    (hpl : l.pupil = some pl) (hpr : r.pupil = some pr) :
    GazeTracking.pupil_left_coords s = some (l.origin.1 + pl.1, l.origin.2 + pl.2) ∧
    GazeTracking.pupil_right_coords s = some (r.origin.1 + pr.1, r.origin.2 + pr.2) := by
  constructor <;>
    simp [GazeTracking.pupil_left_coords, GazeTracking.pupil_right_coords, hl, hr, hpl, hpr]

/-- C8 witness: on `sCenter`, the left pupil at local (55, 20) with
origin (10, 30) reads back as absolute (65, 50), and the right one with
origin (170, 30) as (225, 50). -/
theorem pupil_coords_origin_plus_local_witness :
    GazeTracking.pupil_left_coords sCenter =
      some (eyeC.origin.1 + 55, eyeC.origin.2 + 20) ∧
    GazeTracking.pupil_right_coords sCenter =
      some (eyeD.origin.1 + 55, eyeD.origin.2 + 20) :=
  pupil_coords_origin_plus_local sCenter eyeC eyeD (55, 20) (55, 20) rfl rfl rfl rfl

/-- `is_complete` unfolded to the two length conditions. -/
theorem is_complete_iff (c : Calibration) :
    c.is_complete = true ↔
      c.nb_frames ≤ c.thresholds_left.length ∧ c.nb_frames ≤ c.thresholds_right.length := by
  simp [Calibration.is_complete]

/-- A successful `evaluate` on side 0 appends one sample to the left
list and changes nothing else. -/
theorem evaluate_ok_left {c c1 : Calibration} {prims : CvPrims} {f : Image}
    (h : c.evaluate prims f 0 = .ok c1) :
    ∃ t, c1 = { c with thresholds_left := c.thresholds_left ++ [t] } := by
  cases hf : Calibration.find_best_threshold prims f with
  | error e => rw [Calibration.evaluate, hf] at h; simp [bind, Except.bind] at h
  | ok t =>
    rw [Calibration.evaluate, hf] at h
    simp [bind, Except.bind] at h
    exact ⟨t, h.symm⟩

/-- A successful `evaluate` on side 1 appends one sample to the right
list and changes nothing else. -/
theorem evaluate_ok_right {c c1 : Calibration} {prims : CvPrims} {f : Image}
    (h : c.evaluate prims f 1 = .ok c1) :
    ∃ t, c1 = { c with thresholds_right := c.thresholds_right ++ [t] } := by
  cases hf : Calibration.find_best_threshold prims f with
  | error e => rw [Calibration.evaluate, hf] at h; simp [bind, Except.bind] at h
  | ok t =>
    rw [Calibration.evaluate, hf] at h
    simp [bind, Except.bind] at h
    exact ⟨t, h.symm⟩

/-- Auxiliary strengthened invariant on reachable calibration states:
the frame target stays 20, both lists stay within 20 samples, and the
two lists have equal length at every frame boundary. -/
theorem reachable_invariant_aux {c : Calibration} (hc : ReachableCalib c) :
    c.nb_frames = 20 ∧ c.thresholds_left.length ≤ 20 ∧ c.thresholds_right.length ≤ 20 ∧
    c.thresholds_left.length = c.thresholds_right.length := by
  induction hc with
  | init => simp [initCalibration]
  | frame c c1 c2 prims fL fR hreach h1 h2 ih =>
    obtain ⟨hnb, hL, hR, hEq⟩ := ih
    by_cases hcomp : c.is_complete = true
    · rw [eyeAnalyzeCalib, if_pos hcomp] at h1
      obtain rfl : c = c1 := by cases h1; rfl
      rw [eyeAnalyzeCalib, if_pos hcomp] at h2
      obtain rfl : c = c2 := by cases h2; rfl
      exact ⟨hnb, hL, hR, hEq⟩
    · have hlt : c.thresholds_left.length < 20 := by
        rcases Nat.lt_or_ge c.thresholds_left.length 20 with h | h
        · exact h
        · exfalso
          exact hcomp ((is_complete_iff c).mpr ⟨by omega, by omega⟩)
      rw [eyeAnalyzeCalib, if_neg hcomp] at h1
      obtain ⟨t, rfl⟩ := evaluate_ok_left h1
      have hcomp1 : ¬ ({ c with thresholds_left := c.thresholds_left ++ [t] } :
          Calibration).is_complete = true := by
        rw [is_complete_iff]
        simp only [List.length_append, List.length_cons, List.length_nil]
        omega
      rw [eyeAnalyzeCalib, if_neg hcomp1] at h2
      obtain ⟨u, rfl⟩ := evaluate_ok_right h2
      refine ⟨hnb, ?_, ?_, ?_⟩ <;>
        simp only [List.length_append, List.length_cons, List.length_nil] <;> omega

/-- C9: under the actual per-frame call order of `GazeTracking._analyze`
(left eye then right eye, each running `calibration.evaluate` only while
`is_complete()` is false), every reachable calibration state keeps both
sample lists at 20 samples or fewer and of equal length at every frame
boundary. -/
theorem calibration_session_invariant (c : Calibration) (hc : ReachableCalib c) :
    c.thresholds_left.length ≤ 20 ∧ c.thresholds_right.length ≤ 20 ∧
    c.thresholds_left.length = c.thresholds_right.length :=
  (reachable_invariant_aux hc).2

/-- C9 witness: the invariant instantiated at the freshly constructed
session state. -/
theorem calibration_session_invariant_witness :
    initCalibration.thresholds_left.length ≤ 20 ∧
    initCalibration.thresholds_right.length ≤ 20 ∧
    initCalibration.thresholds_left.length = initCalibration.thresholds_right.length :=
  calibration_session_invariant initCalibration ReachableCalib.init

/-- The processed frame keeps the height of the input frame. -/
theorem image_processing_h (prims : CvPrims) (f : Image) (t : ℕ) :
    (Pupil.image_processing prims f t).h = f.h := by
  simp [Pupil.image_processing, prims.erode_h, prims.bilateral_h]

/-- The processed frame keeps the width of the input frame. -/
theorem image_processing_w (prims : CvPrims) (f : Image) (t : ℕ) :
    (Pupil.image_processing prims f t).w = f.w := by
  simp [Pupil.image_processing, prims.erode_w, prims.bilateral_w]

/-- The occupancy computation in closed form: the trimmed pixel count is
determined by the input frame's dimensions, and the value is the black
fraction of the trimmed binarized frame. -/
theorem occupancy_eq (prims : CvPrims) (f : Image) (t : ℕ) :
    occupancy prims f t =
      (if (f.h - 10) * (f.w - 10) = 0 then .error .zeroDivisionError
       else .ok ((((f.h - 10) * (f.w - 10) -
           countNonZero (trimFrame (Pupil.image_processing prims f t)) : ℕ) : ℚ) /
         (((f.h - 10) * (f.w - 10) : ℕ) : ℚ))) := by
  rw [occupancy, Calibration.iris_size]
  simp only [trimFrame, image_processing_h, image_processing_w]

/-- C10: on an eye frame whose height or width is at most 10 pixels the
5-pixel border trim leaves zero pixels, so every candidate occupancy,
`find_best_threshold`, and hence `Calibration.evaluate` fail with a
`ZeroDivisionError` instead of returning a value. -/
theorem small_frame_zero_division (prims : CvPrims) (f : Image)
    (hsmall : f.h ≤ 10 ∨ f.w ≤ 10) :
    (∀ t, occupancy prims f t = .error .zeroDivisionError) ∧
    Calibration.find_best_threshold prims f = .error .zeroDivisionError ∧
    ∀ (c : Calibration) (side : ℕ),
      c.evaluate prims f side = .error .zeroDivisionError := by
  have hzero : (f.h - 10) * (f.w - 10) = 0 := by
    rcases hsmall with h | h
    · have : f.h - 10 = 0 := by omega
      rw [this, Nat.zero_mul]
    · have : f.w - 10 = 0 := by omega
      rw [this, Nat.mul_zero]
  have hocc : ∀ t, occupancy prims f t = .error .zeroDivisionError := by
    intro t
    rw [occupancy_eq, if_pos hzero]
  have hfbt : Calibration.find_best_threshold prims f = .error .zeroDivisionError := by
    rw [Calibration.find_best_threshold]
    simp [computeTrials, candidateThresholds, hocc, bind, Except.bind]
  refine ⟨hocc, hfbt, fun c side => ?_⟩
  rw [Calibration.evaluate, hfbt]
  simp [bind, Except.bind]

/-- C10 witness: the division-by-zero failure on the concrete 8x8 frame. -/
theorem small_frame_zero_division_witness :
    (∀ t, occupancy idPrims frame8 t = .error .zeroDivisionError) ∧
    Calibration.find_best_threshold idPrims frame8 = .error .zeroDivisionError ∧
    ∀ (c : Calibration) (side : ℕ),
      c.evaluate idPrims frame8 side = .error .zeroDivisionError :=
  small_frame_zero_division idPrims frame8 (Or.inl (by decide))

/-- Raising the binarization threshold can only turn white pixels black,
so the nonzero count of the trimmed binarized frame is antitone in the
threshold. -/
theorem countNonZero_antitone (prims : CvPrims) (f : Image) {t1 t2 : ℕ} (h12 : t1 ≤ t2) :
    countNonZero (trimFrame (Pupil.image_processing prims f t2)) ≤
      countNonZero (trimFrame (Pupil.image_processing prims f t1)) := by
  rw [countNonZero, countNonZero]
  simp only [trimFrame, Pupil.image_processing]
  refine Finset.sum_le_sum fun i _ => Finset.sum_le_sum fun j _ => ?_
  set g := ((prims.erode (prims.bilateralFilter f) 3).px (i + 5) (j + 5)) with hg
  by_cases h2 : g > t2
  · have h1 : g > t1 := lt_of_le_of_lt h12 h2
    simp [h2, h1]
  · simp [h2]

/-- C7: for a fixed eye image, the iris occupancy fraction is
monotonically non-decreasing in the binarization threshold: whenever the
occupancies at thresholds `t1 <= t2` are defined, the one at `t1` is at
most the one at `t2`. -/
theorem occupancy_monotone (prims : CvPrims) (f : Image) (t1 t2 : ℕ) (h12 : t1 ≤ t2)
    (v1 v2 : ℚ) (h1 : occupancy prims f t1 = .ok v1) (h2 : occupancy prims f t2 = .ok v2) :
    v1 ≤ v2 := by
  rw [occupancy_eq] at h1 h2
  by_cases hN : (f.h - 10) * (f.w - 10) = 0
  · rw [if_pos hN] at h1
    exact absurd h1 (by intro hc; cases hc)
  · rw [if_neg hN] at h1 h2
    have hv1 := Except.ok.inj h1
    have hv2 := Except.ok.inj h2
    subst hv1
    subst hv2
    have hpos : (0 : ℚ) < (((f.h - 10) * (f.w - 10) : ℕ) : ℚ) := by
      exact_mod_cast Nat.pos_of_ne_zero hN
    rw [div_le_div_iff_of_pos_right hpos]
    have hcnt := countNonZero_antitone prims f h12
    have hsub : (f.h - 10) * (f.w - 10) -
        countNonZero (trimFrame (Pupil.image_processing prims f t1)) ≤
        (f.h - 10) * (f.w - 10) -
        countNonZero (trimFrame (Pupil.image_processing prims f t2)) :=
      Nat.sub_le_sub_left hcnt _
    exact_mod_cast hsub

/-- C7 witness: on `frame12` the occupancies at thresholds 5 and 10 are
both defined (both equal 1) and ordered. -/
theorem occupancy_monotone_witness :
    occupancy idPrims frame12 5 = .ok 1 ∧ occupancy idPrims frame12 10 = .ok 1 ∧
    (1 : ℚ) ≤ 1 :=
  ⟨occupancy_frame12 5, occupancy_frame12 10,
    occupancy_monotone idPrims frame12 5 10 (by decide) 1 1
      (occupancy_frame12 5) (occupancy_frame12 10)⟩

/-- A successful `computeTrials` run records exactly the requested
thresholds in order, each paired with its measured occupancy. -/
theorem computeTrials_ok_spec (prims : CvPrims) (f : Image) :
    ∀ (l : List ℕ) (tr : List (ℕ × ℚ)), computeTrials prims f l = .ok tr →
      tr.map Prod.fst = l ∧ ∀ p ∈ tr, occupancy prims f p.1 = .ok p.2 := by
  intro l
  induction l with
  | nil =>
    intro tr hok
    rw [computeTrials] at hok
    cases hok
    simp
  | cons t ts ih =>
    intro tr hok
    rw [computeTrials] at hok
    cases hocc : occupancy prims f t with
    | error e => rw [hocc] at hok; simp [bind, Except.bind] at hok
    | ok v =>
      rw [hocc] at hok
      cases hrest : computeTrials prims f ts with
      | error e => rw [hrest] at hok; simp [bind, Except.bind] at hok
      | ok rest =>
        rw [hrest] at hok
        simp only [bind, Except.bind] at hok
        cases hok
        obtain ⟨hmap, hmem⟩ := ih rest hrest
        constructor
        · simp [hmap]
        · intro p hp
          rcases List.mem_cons.mp hp with rfl | hp2
          · exact hocc
          · exact hmem p hp2

/-- The element `pickMin` selects belongs to the scanned sequence. -/
theorem pickMin_mem (target : ℚ) :
    ∀ (ps : List (ℕ × ℚ)) (b : ℕ × ℚ), pickMin target b ps ∈ b :: ps := by
  intro ps
  induction ps with
  | nil =>
    intro b
    rw [pickMin]
    exact List.mem_cons_self b []
  | cons p ps ih =>
    intro b
    rw [pickMin]
    by_cases hc : |p.2 - target| < |b.2 - target|
    · rw [if_pos hc]
      rcases List.mem_cons.mp (ih p) with h | h
      · rw [h]
        exact List.mem_cons_of_mem _ (List.mem_cons_self _ _)
      · exact List.mem_cons_of_mem _ (List.mem_cons_of_mem _ h)
    · rw [if_neg hc]
      rcases List.mem_cons.mp (ih b) with h | h
      · rw [h]
        exact List.mem_cons_self _ _
      · exact List.mem_cons_of_mem _ (List.mem_cons_of_mem _ h)

/-- The element `pickMin` selects has minimal distance to the target
among the scanned sequence. -/
theorem pickMin_le (target : ℚ) :
    ∀ (ps : List (ℕ × ℚ)) (b : ℕ × ℚ) (q : ℕ × ℚ), q ∈ b :: ps →
      |(pickMin target b ps).2 - target| ≤ |q.2 - target| := by
  intro ps
  induction ps with
  | nil =>
    intro b q hq
    rw [pickMin]
    rcases List.mem_cons.mp hq with rfl | h
    · exact le_refl _
    · cases h
  | cons p ps ih =>
    intro b q hq
    rw [pickMin]
    by_cases hc : |p.2 - target| < |b.2 - target|
    · rw [if_pos hc]
      rcases List.mem_cons.mp hq with h | h
      · rw [h]
        exact le_trans (ih p p (List.mem_cons_self _ _)) (le_of_lt hc)
      · rcases List.mem_cons.mp h with h2 | h3
        · rw [h2]
          exact ih p p (List.mem_cons_self _ _)
        · exact ih p q (List.mem_cons_of_mem _ h3)
    · rw [if_neg hc]
      have hble : |b.2 - target| ≤ |p.2 - target| := le_of_not_lt hc
      rcases List.mem_cons.mp hq with h | h
      · rw [h]
        exact ih b b (List.mem_cons_self _ _)
      · rcases List.mem_cons.mp h with h2 | h3
        · rw [h2]
          exact le_trans (ih b b (List.mem_cons_self _ _)) hble
        · exact ih b q (List.mem_cons_of_mem _ h3)

/-- When the scanned sequence carries strictly increasing thresholds,
the element `pickMin` selects is the first minimizer: any element tying
its distance has a threshold at least as large. -/
theorem pickMin_first (target : ℚ) :
    ∀ (ps : List (ℕ × ℚ)) (b : ℕ × ℚ),
      ((b :: ps).Pairwise fun x y : ℕ × ℚ => x.1 < y.1) →
      ∀ q ∈ b :: ps, |q.2 - target| = |(pickMin target b ps).2 - target| →
        (pickMin target b ps).1 ≤ q.1 := by
  intro ps
  induction ps with
  | nil =>
    intro b _ q hq _
    rw [pickMin]
    rcases List.mem_cons.mp hq with h | h
    · rw [h]
    · cases h
  | cons p ps ih =>
    intro b hpw q hq heq
    rw [pickMin] at heq ⊢
    rw [List.pairwise_cons] at hpw
    obtain ⟨hb, hpw2⟩ := hpw
    have hp := (List.pairwise_cons.mp hpw2).1
    have hpw3 := (List.pairwise_cons.mp hpw2).2
    by_cases hc : |p.2 - target| < |b.2 - target|
    · rw [if_pos hc] at heq ⊢
      rcases List.mem_cons.mp hq with h | h
      · exfalso
        have hself : |(pickMin target p ps).2 - target| ≤ |p.2 - target| :=
          pickMin_le target ps p p (List.mem_cons_self _ _)
        have h5 : |(pickMin target p ps).2 - target| < |b.2 - target| :=
          lt_of_le_of_lt hself hc
        rw [h] at heq
        rw [heq] at h5
        exact lt_irrefl _ h5
      · exact ih p hpw2 q h heq
    · rw [if_neg hc] at heq ⊢
      have hPWb : ((b :: ps).Pairwise fun x y : ℕ × ℚ => x.1 < y.1) :=
        List.pairwise_cons.mpr ⟨fun y hy => hb y (List.mem_cons_of_mem _ hy), hpw3⟩
      rcases List.mem_cons.mp hq with h | h
      · exact ih b hPWb q (by rw [h]; exact List.mem_cons_self _ _) heq
      · rcases List.mem_cons.mp h with h2 | h3
        · have hble : |b.2 - target| ≤ |p.2 - target| := le_of_not_lt hc
          have hself : |(pickMin target b ps).2 - target| ≤ |b.2 - target| :=
            pickMin_le target ps b b (List.mem_cons_self _ _)
          have hEqb : |b.2 - target| = |(pickMin target b ps).2 - target| := by
            apply le_antisymm
            · calc |b.2 - target| ≤ |p.2 - target| := hble
                _ = |q.2 - target| := by rw [h2]
                _ = _ := heq
            · exact hself
          have hres := ih b hPWb b (List.mem_cons_self _ _) hEqb
          rw [h2]
          exact le_of_lt (lt_of_le_of_lt hres (hb p (List.mem_cons_self _ _)))
        · exact ih b hPWb q (List.mem_cons_of_mem _ h3) heq

/-- C4: a successful `find_best_threshold` returns a candidate threshold
from `{5, 10, ..., 95}` whose measured occupancy has minimum absolute
difference from 0.48 over all candidates, and any candidate tying that
distance is at least as large — the smallest minimizer wins, because
candidates are scanned in ascending order and the first optimum is
kept. -/
theorem find_best_threshold_optimal (prims : CvPrims) (f : Image) (best : ℕ)
    (hb : Calibration.find_best_threshold prims f = .ok best) :
    best ∈ candidateThresholds ∧
    ∀ t ∈ candidateThresholds, ∀ vb vt : ℚ,
      occupancy prims f best = .ok vb → occupancy prims f t = .ok vt →
      |vb - averageIrisSize| ≤ |vt - averageIrisSize| ∧
      (|vt - averageIrisSize| = |vb - averageIrisSize| → best ≤ t) := by
  rw [Calibration.find_best_threshold] at hb
  cases hct : computeTrials prims f candidateThresholds with
  | error e => rw [hct] at hb; simp [bind, Except.bind] at hb
  | ok tr =>
    rw [hct] at hb
    simp only [bind, Except.bind] at hb
    obtain ⟨hmap, hocc⟩ := computeTrials_ok_spec prims f candidateThresholds tr hct
    cases tr with
    | nil => simp [candidateThresholds] at hmap
    | cons p ps =>
      have hbest : (pickMin averageIrisSize p ps).1 = best := Except.ok.inj hb
      have hresmem : pickMin averageIrisSize p ps ∈ p :: ps :=
        pickMin_mem averageIrisSize ps p
      have hPW : ((p :: ps).Pairwise fun x y : ℕ × ℚ => x.1 < y.1) := by
        have hcand : List.Pairwise (fun a b : ℕ => a < b) candidateThresholds := by decide
        rw [← hmap] at hcand
        exact List.pairwise_map.mp hcand
      constructor
      · rw [← hbest, ← hmap]
        exact List.mem_map_of_mem Prod.fst hresmem
      · intro t ht vb vt hvb hvt
        rw [← hmap] at ht
        obtain ⟨q, hqmem, hqfst⟩ := List.mem_map.mp ht
        have hq2 : occupancy prims f q.1 = .ok q.2 := hocc q hqmem
        rw [hqfst, hvt] at hq2
        have hvt2 : vt = q.2 := Except.ok.inj hq2
        have hres2 : occupancy prims f (pickMin averageIrisSize p ps).1 =
            .ok (pickMin averageIrisSize p ps).2 := hocc _ hresmem
        rw [hbest, hvb] at hres2
        have hvb2 : vb = (pickMin averageIrisSize p ps).2 := Except.ok.inj hres2
        subst hvt2
        subst hvb2
        constructor
        · exact pickMin_le averageIrisSize ps p q hqmem
        · intro htie
          have hfirst := pickMin_first averageIrisSize ps p hPW q hqmem htie
          rw [hbest] at hfirst
          rw [← hqfst]
          exact hfirst

/-- C4 witness: on `frame12` the returned threshold 5 is a candidate and
optimal among the (all-tying) occupancies. -/
theorem find_best_threshold_optimal_witness :
    5 ∈ candidateThresholds ∧
    ∀ t ∈ candidateThresholds, ∀ vb vt : ℚ,
      occupancy idPrims frame12 5 = .ok vb → occupancy idPrims frame12 t = .ok vt →
      |vb - averageIrisSize| ≤ |vt - averageIrisSize| ∧
      (|vt - averageIrisSize| = |vb - averageIrisSize| → 5 ≤ t) :=
  find_best_threshold_optimal idPrims frame12 5 find_best_threshold_frame12

/-- C6: `Pupil.detect_iris` sorts the extracted contours by enclosed
area ascending and selects the second-largest one; it returns absent
coordinates exactly when fewer than two contours exist or the selected
contour has zero area (`m00 = 0`), and otherwise the coordinates are the
truncated moment centroid `(m10 / m00, m01 / m00)` of the selected
contour. -/
theorem detect_iris_characterization (prims : CvPrims) (f : Image) (t : ℕ)
    (cs : List Contour)
    (hcs : cs = sortContours prims (prims.findContours (Pupil.image_processing prims f t))) :
    cs.Sorted (fun a b => prims.contourArea a ≤ prims.contourArea b) ∧
    (Pupil.detect_iris prims f t = none ↔
      cs.length < 2 ∨ (prims.moments (cs.getD (cs.length - 2) 0)).m00 = 0) ∧
    ∀ x y : ℤ, Pupil.detect_iris prims f t = some (x, y) →
      2 ≤ cs.length ∧
      x = pyInt ((prims.moments (cs.getD (cs.length - 2) 0)).m10 /
        (prims.moments (cs.getD (cs.length - 2) 0)).m00) ∧
      y = pyInt ((prims.moments (cs.getD (cs.length - 2) 0)).m01 /
        (prims.moments (cs.getD (cs.length - 2) 0)).m00) := by
  have hsorted : cs.Sorted (fun a b => prims.contourArea a ≤ prims.contourArea b) := by
    rw [hcs, sortContours]
    haveI ht : IsTotal Contour (fun a b => prims.contourArea a ≤ prims.contourArea b) :=
      ⟨fun a b => le_total _ _⟩
    haveI htr : IsTrans Contour (fun a b => prims.contourArea a ≤ prims.contourArea b) :=
      ⟨fun _ _ _ hab hbc => le_trans hab hbc⟩
    exact List.sorted_insertionSort _ _
  have hdet : Pupil.detect_iris prims f t =
      (if 2 ≤ cs.length then
        (if (prims.moments (cs.getD (cs.length - 2) 0)).m00 = 0 then none
         else some
           (pyInt ((prims.moments (cs.getD (cs.length - 2) 0)).m10 /
             (prims.moments (cs.getD (cs.length - 2) 0)).m00),
            pyInt ((prims.moments (cs.getD (cs.length - 2) 0)).m01 /
             (prims.moments (cs.getD (cs.length - 2) 0)).m00)))
       else none) := by
    rw [Pupil.detect_iris, ← hcs]
  refine ⟨hsorted, ?_, ?_⟩
  · rw [hdet]
    by_cases hlen : 2 ≤ cs.length
    · rw [if_pos hlen]
      by_cases hm : (prims.moments (cs.getD (cs.length - 2) 0)).m00 = 0
      · simp [hm, hlen]
      · simp [hm]
        omega
    · rw [if_neg hlen]
      simp only [true_iff]
      left
      omega
  · intro x y hxy
    rw [hdet] at hxy
    by_cases hlen : 2 ≤ cs.length
    · rw [if_pos hlen] at hxy
      by_cases hm : (prims.moments (cs.getD (cs.length - 2) 0)).m00 = 0
      · rw [if_pos hm] at hxy
        cases hxy
      · rw [if_neg hm] at hxy
        have hp := Option.some.inj hxy
        injection hp with h1 h2
        exact ⟨hlen, h1.symm, h2.symm⟩
    · rw [if_neg hlen] at hxy
      cases hxy

/-- Primitives whose contour extraction reports two contours (ids 1 and
0, areas 1 and 0) with nonzero-area moments, for exercising the
centroid path of `detect_iris`. -/
def contourPrims : CvPrims :=
  { bilateralFilter := id
    erode := fun im _ => im
    findContours := fun _ => [1, 0]
    contourArea := fun c => (c : ℚ)
    moments := fun c => { m00 := (c : ℚ) + 1, m10 := 6, m01 := 4 }
    bilateral_h := fun _ => rfl
    bilateral_w := fun _ => rfl
    erode_h := fun _ _ => rfl
    erode_w := fun _ _ => rfl }

/-- The two reported contours sort by area into `[0, 1]`. -/
theorem sortContours_contourPrims :
    ([0, 1] : List Contour) =
      sortContours contourPrims
        (contourPrims.findContours (Pupil.image_processing contourPrims frame12 5)) := by
  norm_num [sortContours, contourPrims, List.insertionSort, List.orderedInsert]

/-- C6 witness: the characterization instantiated on `contourPrims`,
where the sorted contour list is `[0, 1]`, the selected second-largest
contour is 0 with `m00 = 1`, and the centroid is `(6, 4)`. -/
theorem detect_iris_characterization_witness :
    ([0, 1] : List Contour).Sorted
      (fun a b => contourPrims.contourArea a ≤ contourPrims.contourArea b) ∧
    (Pupil.detect_iris contourPrims frame12 5 = none ↔
      ([0, 1] : List Contour).length < 2 ∨
      (contourPrims.moments
        (([0, 1] : List Contour).getD (([0, 1] : List Contour).length - 2) 0)).m00 = 0) ∧
    ∀ x y : ℤ, Pupil.detect_iris contourPrims frame12 5 = some (x, y) →
      2 ≤ ([0, 1] : List Contour).length ∧
      x = pyInt ((contourPrims.moments
          (([0, 1] : List Contour).getD (([0, 1] : List Contour).length - 2) 0)).m10 /
        (contourPrims.moments
          (([0, 1] : List Contour).getD (([0, 1] : List Contour).length - 2) 0)).m00) ∧
      y = pyInt ((contourPrims.moments
          (([0, 1] : List Contour).getD (([0, 1] : List Contour).length - 2) 0)).m01 /
        (contourPrims.moments
          (([0, 1] : List Contour).getD (([0, 1] : List Contour).length - 2) 0)).m00) :=
  detect_iris_characterization contourPrims frame12 5 [0, 1] sortContours_contourPrims
